import Mathlib

/-!
Shallow embedding of the ModuleOpt fleet resource controller
(src/shadow_bot_creator.py and src/task_manager.py) and proofs of the
specification claims about it.

Numbers are modelled as exact rationals; machine floats of the source are
treated as exact arithmetic.  The Python builtin int (truncation toward
zero) is modelled by pyInt.  Registry dictionaries keyed by bot name are
modelled as lists of names in insertion order (a dict assignment to an
existing key keeps the old position and does not change the size).
-/

namespace ModuleOpt

/-! ## shadow_bot_creator.py : ShadowBotManager

The registry state is the set of keys of the dict self.bots, kept in
insertion order.  max_bots is the constructor parameter. -/

structure ShadowBotManager where
  max_bots : ℕ
  bots : List String
deriving Repr, DecidableEq

/-- Embeds create_shadow_bot (shadow_bot_creator.py lines 29-47): when the
registry already holds max_bots entries it prints and returns None with the
registry unchanged; otherwise the container is registered under bot_name
(dict assignment: an existing key is overwritten in place, the key set and
its order do not change).  The returned Option is the Python return value
(None on the capacity path, the container otherwise); the container handle
is modelled by its name. -/
def create_shadow_bot (m : ShadowBotManager) (bot_name : String) :
    Option String × ShadowBotManager :=
  if m.bots.length ≥ m.max_bots then
    (none, m)
  else
    (some bot_name,
      { m with bots := if bot_name ∈ m.bots then m.bots else m.bots ++ [bot_name] })

/-- Embeds stop_shadow_bot (shadow_bot_creator.py lines 49-57): removes the
named bot if present, otherwise prints and leaves the registry unchanged. -/
def stop_shadow_bot (m : ShadowBotManager) (bot_name : String) : ShadowBotManager :=
  if bot_name ∈ m.bots then { m with bots := m.bots.erase bot_name } else m

/-- One registry operation: a create call (with the name it would use) or a
stop call. -/
inductive BotOp where
  | create (name : String)
  | stop (name : String)
deriving Repr, DecidableEq

/-- State transition of one registry operation. -/
def runBotOp (m : ShadowBotManager) : BotOp → ShadowBotManager
  | .create n => (create_shadow_bot m n).2
  | .stop n => stop_shadow_bot m n

/-- State after a sequence of create and stop calls. -/
def runBotOps (m : ShadowBotManager) (ops : List BotOp) : ShadowBotManager :=
  ops.foldl runBotOp m

/-- Embeds auto_scale_bots (shadow_bot_creator.py lines 63-78).  The host
CPU and memory percentages read from psutil are parameters, as are the name
a fresh create would draw and the index random.choice would pick.  The
grow condition is written exactly as in the source, where Python operator
precedence groups it as cpu > 80 or (mem > 80 and count < max). -/
def auto_scale_bots (m : ShadowBotManager) (system_cpu system_mem : ℚ)
    (fresh : String) (choice : ℕ) : ShadowBotManager :=
  if system_cpu > 80 ∨ (system_mem > 80 ∧ m.bots.length < m.max_bots) then
    (create_shadow_bot m fresh).2
  else if system_cpu < 30 ∧ system_mem < 30 ∧ m.bots.length > 1 then
    stop_shadow_bot m (m.bots.getD (choice % m.bots.length) "")
  else
    m

/-! ## task_manager.py : the per-container monitor loop

One reading fetched from the runtime at the top of a tick
(task_manager.py lines 68-73). -/

structure Stats where
  cpu_usage : ℚ
  mem_usage : ℚ
  mem_limit : ℚ
  system_cpu_usage : ℚ
  system_mem_usage : ℚ
deriving Repr, DecidableEq

/-- The 4-tuple appended to self.load_history (task_manager.py line 75):
container CPU usage, container memory usage, host CPU percent, host memory
percent.  The memory limit is NOT part of the tuple. -/
structure Sample where
  cpu_usage : ℚ
  mem_usage : ℚ
  system_cpu_usage : ℚ
  system_mem_usage : ℚ
deriving Repr, DecidableEq

def sampleOf (st : Stats) : Sample :=
  ⟨st.cpu_usage, st.mem_usage, st.system_cpu_usage, st.system_mem_usage⟩

/-- Embeds lines 75-77: append the sample, then pop index 0 when the length
exceeds 10. -/
def pushSample (h : List Sample) (s : Sample) : List Sample :=
  let h2 := h ++ [s]
  if h2.length > 10 then h2.drop 1 else h2

/-- Embeds line 79: sum of the first tuple field divided by the length. -/
def avg_cpu (h : List Sample) : ℚ := (h.map Sample.cpu_usage).sum / h.length

/-- Embeds line 80. -/
def avg_mem (h : List Sample) : ℚ := (h.map Sample.mem_usage).sum / h.length

/-- Embeds line 81. -/
def avg_system_cpu (h : List Sample) : ℚ :=
  (h.map Sample.system_cpu_usage).sum / h.length

/-- Embeds line 82. -/
def avg_system_mem (h : List Sample) : ℚ :=
  (h.map Sample.system_mem_usage).sum / h.length

/-- The Python builtin int applied to a rational: truncation toward zero. -/
def pyInt (x : ℚ) : ℤ := if 0 ≤ x then ⌊x⌋ else ⌈x⌉

/-- The four scaling actions a tick can apply to the container, with the
numeric payload the code passes to the runtime. -/
inductive Action where
  | growMemory (new_mem_limit : ℤ)
  | growCpu (new_cpu_quota : ℤ)
  | restartContainer
  | scaleOut
deriving Repr, DecidableEq

/-- Embeds the decision part of one iteration of _monitor_container
(task_manager.py lines 75-112): push the sample, compute the four averages,
then evaluate the four independent if-branches in source order.  Returns
the ordered action list and the updated history.  The memory ratio is
avg_mem divided by the instantaneous mem_limit local variable, exactly as
in the source; the growMemory payload is int(mem_limit * 1.2) and the
growCpu payload is int(avg_cpu * 1.2). -/
def monitorActions (h : List Sample) (st : Stats) : List Action × List Sample :=
  let h2 := pushSample h (sampleOf st)
  let avgCpu := avg_cpu h2
  let avgMem := avg_mem h2
  let avgSysCpu := avg_system_cpu h2
  let avgSysMem := avg_system_mem h2
  ((if avgMem / st.mem_limit > 0.8 ∨ avgSysMem > 85 then
      [Action.growMemory (pyInt (st.mem_limit * 1.2))] else []) ++
    (if avgCpu > 50000 ∨ avgSysCpu > 85 then
      [Action.growCpu (pyInt (avgCpu * 1.2))] else []) ++
    (if avgMem / st.mem_limit > 0.9 ∨ avgCpu > 70000 then
      [Action.restartContainer] else []) ++
    (if avgCpu > 60000 ∨ avgMem / st.mem_limit > 0.85 then
      [Action.scaleOut] else []), h2)

/-- Arithmetic mean of a list of rationals, following the words of the
spec: the sum over all retained samples divided by their number. -/
def arithMean (l : List ℚ) : ℚ := l.sum / l.length

/-- Smoothed memory ratio as claim C2 words it, for comparison with the
source: smoothed memory usage divided by smoothed memory limit, each a mean
over the retained window.  The history kept by the source does not retain
the limit, so this quantity is not computable from the source state. -/
def memRatioSpec (mems limits : List ℚ) : ℚ := arithMean mems / arithMean limits

/-- Modelled from the spec: _scale_up is invoked at task_manager.py line
112 but its definition is absent from the source file (the file ends inside
_send_webhook_alert).  Per spec section 4.5, scale-out creates a container
only if the current count is below the maximum; otherwise it is suppressed
with no error. -/
def scale_up (containers : List String) (max_containers : ℕ) (fresh : String) :
    List String :=
  if containers.length < max_containers then containers ++ [fresh] else containers

/-- The underlying requests.post call of _send_webhook_alert: delivery
either succeeds or raises, according to the outcome flag supplied by the
environment. -/
def requests_post (ok : Bool) : Except String Unit :=
  if ok then .ok () else .error "RequestException"

/-- Embeds _send_webhook_alert (task_manager.py lines 116-121): with no
webhook_url configured it does nothing; otherwise it posts once and the
surrounding try/except catches every exception and prints the error
locally.  The value carried on success is the list of local error prints;
the Except layer records whether an exception escapes to the caller. -/
def send_webhook_alert (webhook_url : Option String) (ok : Bool) :
    Except String (List String) :=
  match webhook_url with
  | none => .ok []
  | some _ =>
    match requests_post ok with
    | .ok _ => .ok []
    | .error e => .ok ["Blad podczas wysylania webhooka: " ++ e]

/-- The mutable TaskManager state a monitor tick touches: the single
self.load_history list, the container registry, the persistent event log
rows, and the local print output. -/
structure TMState where
  load_history : List Sample
  containers : List String
  events : List String
  local_log : List String
deriving Repr, DecidableEq

/-- The message of each fired branch (task_manager.py lines 90, 96, 102,
108). -/
def actionMessage (bot_name : String) : Action → String
  | .growMemory _ => "Zwiekszanie zasobow RAM dla kontenera " ++ bot_name ++ "."
  | .growCpu _ => "Zwiekszanie zasobow CPU dla kontenera " ++ bot_name ++ "."
  | .restartContainer =>
      "Restartowanie kontenera " ++ bot_name ++ " z powodu wysokiego zuzycia zasobow."
  | .scaleOut => "Skalowanie systemu: dodawanie nowego kontenera."

/-- The effect of one fired branch on the TaskManager state: send the
webhook alert (appending any caught-error print to the local log), append
the event message to the persistent log, and for scale-out apply the
spec-modelled _scale_up to the registry.  Container-handle effects (the
update and restart calls) carry their payload in the Action itself. -/
def applyAction (bot_name : String) (max_containers : ℕ) (url : Option String)
    (fresh : String) (s : TMState) (ok : Bool) (a : Action) : TMState :=
  let alerted :=
    match send_webhook_alert url ok with
    | .ok printed => { s with local_log := s.local_log ++ printed }
    | .error _ => s
  let logged :=
    { alerted with events := alerted.events ++ [actionMessage bot_name a] }
  match a with
  | .scaleOut =>
      { logged with containers := scale_up logged.containers max_containers fresh }
  | _ => logged

/-- One iteration of _monitor_container for the container named bot_name:
the sample is pushed onto the load history owned by the TaskManager (the
single self.load_history, shared by all monitor loops of the manager), the
four branches are evaluated, and each fired branch alerts, logs and acts in
source order.  delivery i is the outcome of the i-th webhook post of this
tick. -/
def monitorTick (bot_name : String) (max_containers : ℕ) (url : Option String)
    (delivery : ℕ → Bool) (fresh : String) (s : TMState) (st : Stats) : TMState :=
  let r := monitorActions s.load_history st
  let s1 := { s with load_history := r.2 }
  (r.1.enum).foldl
    (fun acc p => applyAction bot_name max_containers url fresh acc (delivery p.1) p.2)
    s1

/-- Modelled from the spec: the code pushing to and popping from
self.task_queue is absent from the source (only the PriorityQueue
construction at task_manager.py line 20 remains).  Per spec section 4.2 a
task carries a priority (lower value serviced first) and a payload. -/
structure Task where
  priority : ℕ
  payload : ℕ
deriving Repr, DecidableEq

/-- Modelled from the spec: push enqueues at the back; the queue content is
the list of pending tasks in insertion order. -/
def pushTask (q : List Task) (t : Task) : List Task := q ++ [t]

/-- Modelled from the spec: pop returns the task with the lowest priority
value, breaking ties among equal priorities by insertion order, together
with the remaining queue; on an empty queue there is nothing to return (the
real pop blocks). -/
def popTask : List Task → Option (Task × List Task)
  | [] => none
  | t :: ts =>
    match popTask ts with
    | none => some (t, [])
    | some (u, ts2) =>
      if t.priority ≤ u.priority then some (t, ts) else some (u, t :: ts2)

end ModuleOpt

namespace ModuleOpt

/-! ## Helper lemmas -/

theorem create_at_capacity (m : ShadowBotManager) (n : String)
    (h : m.bots.length ≥ m.max_bots) : create_shadow_bot m n = (none, m) := by
  simp [create_shadow_bot, h]

theorem runBotOp_length_le (m : ShadowBotManager) (op : BotOp)
    (h : m.bots.length ≤ m.max_bots) : (runBotOp m op).bots.length ≤ m.max_bots := by
  cases op with
  | create n =>
    by_cases hcap : m.bots.length ≥ m.max_bots
    · simpa [runBotOp, create_shadow_bot, hcap] using h
    · push_neg at hcap
      by_cases hmem : n ∈ m.bots
      · simpa [runBotOp, create_shadow_bot, not_le.mpr hcap, hmem] using h
      · simpa [runBotOp, create_shadow_bot, not_le.mpr hcap, hmem] using hcap
  | stop n =>
    by_cases hmem : n ∈ m.bots
    · simp only [runBotOp, stop_shadow_bot, if_pos hmem]
      exact le_trans (List.length_erase_le _ _) h
    · simpa [runBotOp, stop_shadow_bot, hmem] using h

theorem runBotOp_max_eq (m : ShadowBotManager) (op : BotOp) :
    (runBotOp m op).max_bots = m.max_bots := by
  cases op with
  | create n =>
    by_cases hcap : m.bots.length ≥ m.max_bots <;>
      by_cases hmem : n ∈ m.bots <;>
        simp [runBotOp, create_shadow_bot, hcap, hmem]
  | stop n =>
    by_cases hmem : n ∈ m.bots <;> simp [runBotOp, stop_shadow_bot, hmem]

theorem runBotOps_max_eq (ops : List BotOp) (m : ShadowBotManager) :
    (runBotOps m ops).max_bots = m.max_bots := by
  induction ops generalizing m with
  | nil => rfl
  | cons op rest ih =>
    simpa [runBotOps, List.foldl_cons, runBotOp_max_eq] using ih (runBotOp m op)

theorem runBotOps_length_le (ops : List BotOp) (m : ShadowBotManager)
    (h : m.bots.length ≤ m.max_bots) :
    (runBotOps m ops).bots.length ≤ (runBotOps m ops).max_bots := by
  induction ops generalizing m with
  | nil => simpa [runBotOps] using h
  | cons op rest ih =>
    have h1 : (runBotOp m op).bots.length ≤ (runBotOp m op).max_bots := by
      rw [runBotOp_max_eq]; exact runBotOp_length_le m op h
    simpa [runBotOps, List.foldl_cons] using ih (runBotOp m op) h1

theorem pushSample_length_le {h : List Sample} (s : Sample)
    (hl : h.length ≤ 10) : (pushSample h s).length ≤ 10 := by
  simp only [pushSample]
  split
  · next hc =>
    simp only [List.length_append, List.length_cons, List.length_nil] at hc
    simp only [List.length_drop, List.length_append, List.length_cons, List.length_nil]
    omega
  · next hc =>
    simp only [List.length_append, List.length_cons, List.length_nil] at hc ⊢
    omega

theorem foldl_pushSample_eq_drop (xs : List Sample) (h : List Sample)
    (hl : h.length ≤ 10) :
    List.foldl pushSample h xs = (h ++ xs).drop ((h ++ xs).length - 10) := by
  induction xs generalizing h with
  | nil =>
    simp only [List.append_nil, List.foldl_nil]
    have h0 : h.length - 10 = 0 := by omega
    rw [h0, List.drop_zero]
  | cons x xs ih =>
    rw [List.foldl_cons, ih (pushSample h x) (pushSample_length_le x hl)]
    by_cases hc : (h ++ [x]).length > 10
    · have h10 : h.length = 10 := by
        simp only [List.length_append, List.length_cons, List.length_nil] at hc; omega
      have hpush : pushSample h x = (h ++ [x]).drop 1 := by
        simp only [pushSample]; rw [if_pos hc]
      have h1le : 1 ≤ (h ++ [x]).length := by simp
      rw [hpush, ← List.drop_append_of_le_length h1le, List.drop_drop]
      have e1 : (h ++ [x]) ++ xs = h ++ x :: xs := by simp
      rw [e1]
      congr 1
      simp only [List.length_drop, List.length_append, List.length_cons,
        List.length_nil, e1]
      omega
    · have hpush : pushSample h x = h ++ [x] := by
        simp only [pushSample]; rw [if_neg hc]
      rw [hpush]
      have e1 : (h ++ [x]) ++ xs = h ++ x :: xs := by simp
      rw [e1]

theorem stop_shadow_bot_length_le (m : ShadowBotManager) (n : String) :
    (stop_shadow_bot m n).bots.length ≤ m.bots.length := by
  by_cases hmem : n ∈ m.bots
  · simp only [stop_shadow_bot, if_pos hmem]
    exact List.length_erase_le _ _
  · simp [stop_shadow_bot, hmem]

theorem applyAction_events (b : String) (mx : ℕ) (url : Option String)
    (fresh : String) (s : TMState) (ok : Bool) (a : Action) :
    (applyAction b mx url fresh s ok a).events =
      s.events ++ [actionMessage b a] := by
  cases url <;> cases ok <;> cases a <;>
    simp [applyAction, send_webhook_alert, requests_post]

theorem applyAction_load_history (b : String) (mx : ℕ) (url : Option String)
    (fresh : String) (s : TMState) (ok : Bool) (a : Action) :
    (applyAction b mx url fresh s ok a).load_history = s.load_history := by
  cases url <;> cases ok <;> cases a <;>
    simp [applyAction, send_webhook_alert, requests_post]

theorem foldl_applyAction_events (b : String) (mx : ℕ) (url : Option String)
    (d : ℕ → Bool) (fresh : String) (ps : List (ℕ × Action)) (s : TMState) :
    (ps.foldl (fun acc p => applyAction b mx url fresh acc (d p.1) p.2) s).events =
      s.events ++ ps.map (fun p => actionMessage b p.2) := by
  induction ps generalizing s with
  | nil => simp
  | cons p ps ih =>
    rw [List.foldl_cons, ih, applyAction_events, List.map_cons, List.append_assoc,
      List.singleton_append]

theorem foldl_applyAction_load_history (b : String) (mx : ℕ) (url : Option String)
    (d : ℕ → Bool) (fresh : String) (ps : List (ℕ × Action)) (s : TMState) :
    (ps.foldl (fun acc p => applyAction b mx url fresh acc (d p.1) p.2) s).load_history =
      s.load_history := by
  induction ps generalizing s with
  | nil => simp
  | cons p ps ih => rw [List.foldl_cons, ih, applyAction_load_history]

theorem monitorTick_load_history (b : String) (mx : ℕ) (url : Option String)
    (d : ℕ → Bool) (fresh : String) (s : TMState) (st : Stats) :
    (monitorTick b mx url d fresh s st).load_history =
      pushSample s.load_history (sampleOf st) := by
  simp only [monitorTick]
  rw [foldl_applyAction_load_history]
  simp [monitorActions]

theorem monitorTick_events (b : String) (mx : ℕ) (url : Option String)
    (d : ℕ → Bool) (fresh : String) (s : TMState) (st : Stats) :
    (monitorTick b mx url d fresh s st).events =
      s.events ++ (monitorActions s.load_history st).1.map (actionMessage b) := by
  simp only [monitorTick]
  rw [foldl_applyAction_events]
  congr 1
  rw [show (fun p : ℕ × Action => actionMessage b p.2) =
      (actionMessage b) ∘ Prod.snd from rfl,
    ← List.map_map, List.enum_map_snd]

theorem foldl_pushTask_eq (ts acc : List Task) :
    List.foldl pushTask acc ts = acc ++ ts := by
  induction ts generalizing acc with
  | nil => simp
  | cons t ts ih => simp [List.foldl_cons, pushTask, ih]

theorem popTask_eq_none {q : List Task} : popTask q = none ↔ q = [] := by
  cases q with
  | nil => simp [popTask]
  | cons t ts =>
    simp only [popTask]
    rcases hpop : popTask ts with _ | ⟨u, ts2⟩
    · simp
    · simp only []
      split <;> simp

theorem popTask_spec (q : List Task) (t : Task) (q2 : List Task)
    (h : popTask q = some (t, q2)) :
    (∀ u ∈ q, t.priority ≤ u.priority) ∧
      ∃ pre post, q = pre ++ t :: post ∧ q2 = pre ++ post ∧
        ∀ u ∈ pre, t.priority < u.priority := by
  induction q generalizing t q2 with
  | nil => simp [popTask] at h
  | cons a ts ih =>
    rcases hpop : popTask ts with _ | ⟨u, ts2⟩
    · have hts : ts = [] := popTask_eq_none.mp hpop
      subst hts
      simp only [popTask, Option.some.injEq, Prod.mk.injEq] at h
      obtain ⟨rfl, rfl⟩ := h
      refine ⟨?_, [], [], by simp, by simp, by simp⟩
      intro v hv
      simp only [List.mem_singleton] at hv
      subst hv
      exact le_refl _
    · simp only [popTask, hpop] at h
      by_cases hle : a.priority ≤ u.priority
      · rw [if_pos hle] at h
        simp only [Option.some.injEq, Prod.mk.injEq] at h
        obtain ⟨rfl, rfl⟩ := h
        obtain ⟨hmin, pre, post, hq, hq2, hpre⟩ := ih u ts2 hpop
        refine ⟨?_, [], ts, by simp, by simp, by simp⟩
        intro v hv
        rcases List.mem_cons.mp hv with rfl | hv2
        · exact le_refl _
        · exact le_trans hle (hmin v hv2)
      · rw [if_neg hle] at h
        simp only [Option.some.injEq, Prod.mk.injEq] at h
        obtain ⟨rfl, rfl⟩ := h
        obtain ⟨hmin, pre, post, hq, hq2, hpre⟩ := ih u ts2 hpop
        refine ⟨?_, a :: pre, post, ?_, ?_, ?_⟩
        · intro v hv
          rcases List.mem_cons.mp hv with rfl | hv2
          · exact le_of_lt (not_le.mp hle)
          · exact hmin v hv2
        · rw [List.cons_append, ← hq]
        · rw [List.cons_append, ← hq2]
        · intro v hv
          rcases List.mem_cons.mp hv with rfl | hv2
          · exact not_le.mp hle
          · exact hpre v hv2


/-- C1: For every sequence of create and stop calls on the registry
(ShadowBotManager), the registry never holds more than max_bots entries; a
create attempted when the registry already holds max_bots entries fails
with CapacityExceeded (returns None) and leaves the registry state
unchanged. -/
theorem C1_registry_capacity (m : ShadowBotManager) (ops : List BotOp)
    (hstart : m.bots.length ≤ m.max_bots) :
    (runBotOps m ops).bots.length ≤ m.max_bots ∧
      (∀ n : String, (runBotOps m ops).bots.length ≥ m.max_bots →
        create_shadow_bot (runBotOps m ops) n = (none, runBotOps m ops)) := by
  have hmax : (runBotOps m ops).max_bots = m.max_bots := runBotOps_max_eq ops m
  refine ⟨?_, ?_⟩
  · have := runBotOps_length_le ops m hstart
    rwa [hmax] at this
  · intro n hge
    exact create_at_capacity _ n (by rwa [hmax])

/-- Witness for C1 at a concrete run: starting from an empty registry with
max_bots = 2, three creates and a stop never push the size above 2, and a
create at capacity returns None with the state unchanged. -/
theorem C1_registry_capacity_witness :
    (({ max_bots := 2, bots := [] } : ShadowBotManager).bots.length ≤ 2) ∧
      ((runBotOps { max_bots := 2, bots := [] }
          [.create "a", .create "b", .create "c", .stop "a"]).bots.length ≤ 2 ∧
        (∀ n : String,
          (runBotOps { max_bots := 2, bots := [] }
              [.create "a", .create "b", .create "c", .stop "a"]).bots.length ≥ 2 →
          create_shadow_bot
              (runBotOps { max_bots := 2, bots := [] }
                [.create "a", .create "b", .create "c", .stop "a"]) n =
            (none, runBotOps { max_bots := 2, bots := [] }
                [.create "a", .create "b", .create "c", .stop "a"]))) :=
  ⟨by decide,
    C1_registry_capacity { max_bots := 2, bots := [] }
      [.create "a", .create "b", .create "c", .stop "a"] (by decide)⟩

/-- C4: The load history never holds more than its capacity (10) samples,
and after inserting capacity+k samples the retained samples are exactly the
most recent capacity samples, the oldest evicted first (FIFO). -/
theorem C4_history_capacity_fifo (xs : List Sample) :
    (List.foldl pushSample [] xs).length ≤ 10 ∧
      List.foldl pushSample [] xs = xs.drop (xs.length - 10) := by
  have h := foldl_pushSample_eq_drop xs [] (by simp)
  simp only [List.nil_append] at h
  refine ⟨?_, h⟩
  rw [h]
  simp only [List.length_drop]
  omega

/-- C5: Each smoothed value used by the monitor equals the arithmetic mean
of that field over exactly the currently retained samples of the load
history (the most recent at most 10 insertions), with no decay
weighting. -/
theorem C5_smoothed_equals_mean (xs : List Sample) :
    avg_cpu (List.foldl pushSample [] xs) =
        arithMean ((List.foldl pushSample [] xs).map Sample.cpu_usage) ∧
      avg_mem (List.foldl pushSample [] xs) =
        arithMean ((List.foldl pushSample [] xs).map Sample.mem_usage) ∧
      avg_system_cpu (List.foldl pushSample [] xs) =
        arithMean ((List.foldl pushSample [] xs).map Sample.system_cpu_usage) ∧
      avg_system_mem (List.foldl pushSample [] xs) =
        arithMean ((List.foldl pushSample [] xs).map Sample.system_mem_usage) ∧
      List.foldl pushSample [] xs = xs.drop (xs.length - 10) := by
  have hdrop := foldl_pushSample_eq_drop xs [] (by simp)
  simp only [List.nil_append] at hdrop
  refine ⟨?_, ?_, ?_, ?_, hdrop⟩ <;>
    simp [avg_cpu, avg_mem, avg_system_cpu, avg_system_mem, arithMean,
      List.length_map]

/-- C2 counterexample: two consecutive readings whose memory limits are
1000 then 100 while the memory usage stays 90.  The second tick fires
GrowMemory because the ratio the code compares is the smoothed usage 90
divided by the instantaneous limit 100, giving 0.9 > 0.8, although the
smoothed usage divided by the smoothed limit is 90/550 ≤ 0.8 (and the
smoothed host memory is 0 ≤ 85), so the ratio the claim describes crosses
no threshold: the compared ratio is not smoothed usage over smoothed
limit. -/
theorem C2_smoothed_ratio_counterexample :
    Action.growMemory 120 ∈
        (monitorActions (monitorActions [] ⟨0, 90, 1000, 0, 0⟩).2
          ⟨0, 90, 100, 0, 0⟩).1 ∧
      avg_mem (monitorActions (monitorActions [] ⟨0, 90, 1000, 0, 0⟩).2
            ⟨0, 90, 100, 0, 0⟩).2 /
          (⟨0, 90, 100, 0, 0⟩ : Stats).mem_limit = 0.9 ∧
      memRatioSpec [90, 90] [1000, 100] ≤ 0.8 ∧
      avg_system_mem (monitorActions (monitorActions [] ⟨0, 90, 1000, 0, 0⟩).2
          ⟨0, 90, 100, 0, 0⟩).2 ≤ 85 ∧
      memRatioSpec [90, 90] [1000, 100] ≠ 0.9 := by
  norm_num [monitorActions, pushSample, sampleOf, avg_cpu, avg_mem,
    avg_system_cpu, avg_system_mem, memRatioSpec, arithMean, pyInt]

/-- C2 (amended): every threshold of a monitor tick is evaluated against
the smoothed (window-averaged) values of the four sampled fields, but the
memory ratio compared against 0.8, 0.85 and 0.9 is smoothed memory usage
divided by the instantaneous memory limit of the current reading: the
action list is a function of the four smoothed values together with the
current mem_limit. -/
theorem C2_amended_smoothed_inputs (h1 h2 : List Sample) (st1 st2 : Stats)
    (hc : avg_cpu (pushSample h1 (sampleOf st1)) =
      avg_cpu (pushSample h2 (sampleOf st2)))
    (hm : avg_mem (pushSample h1 (sampleOf st1)) =
      avg_mem (pushSample h2 (sampleOf st2)))
    (hsc : avg_system_cpu (pushSample h1 (sampleOf st1)) =
      avg_system_cpu (pushSample h2 (sampleOf st2)))
    (hsm : avg_system_mem (pushSample h1 (sampleOf st1)) =
      avg_system_mem (pushSample h2 (sampleOf st2)))
    (hl : st1.mem_limit = st2.mem_limit) :
    (monitorActions h1 st1).1 = (monitorActions h2 st2).1 := by
  simp only [monitorActions]
  rw [hc, hm, hsc, hsm, hl]

/-- Witness for the amended C2: a one-sample window and a two-sample window
with the same four smoothed values (10, 20, 30, 40) and the same current
limit 100 produce the same action list. -/
theorem C2_amended_smoothed_inputs_witness :
    (monitorActions [] ⟨10, 20, 100, 30, 40⟩).1 =
      (monitorActions [⟨5, 10, 15, 20⟩] ⟨15, 30, 100, 45, 60⟩).1 :=
  C2_amended_smoothed_inputs [] [⟨5, 10, 15, 20⟩] ⟨10, 20, 100, 30, 40⟩
    ⟨15, 30, 100, 45, 60⟩
    (by norm_num [avg_cpu, pushSample, sampleOf])
    (by norm_num [avg_mem, pushSample, sampleOf])
    (by norm_num [avg_system_cpu, pushSample, sampleOf])
    (by norm_num [avg_system_mem, pushSample, sampleOf])
    (by norm_num)

/-- C3: the four threshold checks (GrowMemory, GrowCpu, RestartContainer,
ScaleOut) are evaluated independently on every tick, not as mutually
exclusive branches: whenever all four conditions hold of the smoothed
snapshot, the single tick returns all four actions. -/
theorem C3_checks_independent (h : List Sample) (st : Stats)
    (h1 : avg_mem (pushSample h (sampleOf st)) / st.mem_limit > 0.8 ∨
      avg_system_mem (pushSample h (sampleOf st)) > 85)
    (h2 : avg_cpu (pushSample h (sampleOf st)) > 50000 ∨
      avg_system_cpu (pushSample h (sampleOf st)) > 85)
    (h3 : avg_mem (pushSample h (sampleOf st)) / st.mem_limit > 0.9 ∨
      avg_cpu (pushSample h (sampleOf st)) > 70000)
    (h4 : avg_cpu (pushSample h (sampleOf st)) > 60000 ∨
      avg_mem (pushSample h (sampleOf st)) / st.mem_limit > 0.85) :
    Action.growMemory (pyInt (st.mem_limit * 1.2)) ∈ (monitorActions h st).1 ∧
      Action.growCpu (pyInt (avg_cpu (pushSample h (sampleOf st)) * 1.2)) ∈
        (monitorActions h st).1 ∧
      Action.restartContainer ∈ (monitorActions h st).1 ∧
      Action.scaleOut ∈ (monitorActions h st).1 := by
  simp only [monitorActions]
  rw [if_pos h1, if_pos h2, if_pos h3, if_pos h4]
  simp

/-- Witness for C3: the snapshot of the claim, memory ratio 0.95 (usage 95,
limit 100) and host CPU 90, makes a single tick return all four actions. -/
theorem C3_checks_independent_witness :
    Action.growMemory 120 ∈ (monitorActions [] ⟨0, 95, 100, 90, 0⟩).1 ∧
      Action.growCpu 0 ∈ (monitorActions [] ⟨0, 95, 100, 90, 0⟩).1 ∧
      Action.restartContainer ∈ (monitorActions [] ⟨0, 95, 100, 90, 0⟩).1 ∧
      Action.scaleOut ∈ (monitorActions [] ⟨0, 95, 100, 90, 0⟩).1 := by
  have h := C3_checks_independent [] ⟨0, 95, 100, 90, 0⟩
    (by norm_num [avg_mem, avg_system_mem, pushSample, sampleOf])
    (by norm_num [avg_cpu, avg_system_cpu, pushSample, sampleOf])
    (by norm_num [avg_mem, avg_cpu, pushSample, sampleOf])
    (by norm_num [avg_cpu, avg_mem, pushSample, sampleOf])
  have e1 : pyInt ((⟨0, 95, 100, 90, 0⟩ : Stats).mem_limit * 1.2) = 120 := by
    norm_num [pyInt]
  have e2 : avg_cpu (pushSample [] (sampleOf ⟨0, 95, 100, 90, 0⟩)) = 0 := by
    norm_num [avg_cpu, pushSample, sampleOf]
  rw [e1, e2] at h
  have e3 : pyInt ((0 : ℚ) * 1.2) = 0 := by norm_num [pyInt]
  rwa [e3] at h

/-- C7: when GrowMemory fires, the payload passed to the runtime is
int(1.2 times the current memory limit); when GrowCpu fires, the payload is
int(1.2 times the smoothed CPU usage serving as the quota basis); and on a
nonnegative basis that is an integer multiple of 5 the applied factor is
exactly 1.2. -/
theorem C7_growth_factors (h : List Sample) (st : Stats)
    (hmem : avg_mem (pushSample h (sampleOf st)) / st.mem_limit > 0.8 ∨
      avg_system_mem (pushSample h (sampleOf st)) > 85)
    (hcpu : avg_cpu (pushSample h (sampleOf st)) > 50000 ∨
      avg_system_cpu (pushSample h (sampleOf st)) > 85) :
    Action.growMemory (pyInt (st.mem_limit * 1.2)) ∈ (monitorActions h st).1 ∧
      Action.growCpu (pyInt (avg_cpu (pushSample h (sampleOf st)) * 1.2)) ∈
        (monitorActions h st).1 ∧
      (∀ L : ℤ, 0 ≤ L →
        (pyInt (((5 * L : ℤ) : ℚ) * 1.2) : ℚ) = 1.2 * ((5 * L : ℤ) : ℚ)) := by
  refine ⟨?_, ?_, ?_⟩
  · simp only [monitorActions]
    rw [if_pos hmem]
    simp
  · simp only [monitorActions]
    rw [if_pos hcpu]
    simp
  · intro L hL
    have e : ((5 * L : ℤ) : ℚ) * 1.2 = ((6 * L : ℤ) : ℚ) := by
      push_cast
      ring
    have h0 : (0 : ℚ) ≤ ((6 * L : ℤ) : ℚ) := by
      have : (0 : ℤ) ≤ 6 * L := by omega
      exact_mod_cast this
    rw [pyInt, e, if_pos h0, Int.floor_intCast]
    push_cast
    ring

/-- Witness for C7: a tick with smoothed CPU 60000, current limit 100 and
host memory 90 fires both grow actions with payloads 120 = int(100 * 1.2)
and 72000 = int(60000 * 1.2); the factor on the multiple-of-5 basis 100 is
exactly 1.2. -/
theorem C7_growth_factors_witness :
    Action.growMemory 120 ∈ (monitorActions [] ⟨60000, 0, 100, 0, 90⟩).1 ∧
      Action.growCpu 72000 ∈ (monitorActions [] ⟨60000, 0, 100, 0, 90⟩).1 ∧
      (pyInt (((5 * 20 : ℤ) : ℚ) * 1.2) : ℚ) = 1.2 * ((5 * 20 : ℤ) : ℚ) := by
  have h := C7_growth_factors [] ⟨60000, 0, 100, 0, 90⟩
    (by norm_num [avg_mem, avg_system_mem, pushSample, sampleOf])
    (by norm_num [avg_cpu, avg_system_cpu, pushSample, sampleOf])
  have e1 : pyInt ((⟨60000, 0, 100, 0, 90⟩ : Stats).mem_limit * 1.2) = 120 := by
    norm_num [pyInt]
  have e2 : avg_cpu (pushSample [] (sampleOf ⟨60000, 0, 100, 0, 90⟩)) = 60000 := by
    norm_num [avg_cpu, pushSample, sampleOf]
  rw [e1, e2] at h
  have e3 : pyInt ((60000 : ℚ) * 1.2) = 72000 := by norm_num [pyInt]
  rw [e3] at h
  exact ⟨h.1, h.2.1, h.2.2 20 (by norm_num)⟩

/-- C6: a scale-out creates an additional container only when the current
count is strictly below the configured maximum, and at the maximum it is
suppressed without an error, on both paths: the per-container policy path
(the spec-modelled _scale_up) changes the registry only from below the
maximum and is the identity at capacity, and the coarse fleet auto-scale
path never grows the fleet at capacity (the create inside it returns None
and leaves the state unchanged). -/
theorem C6_scale_out_only_below_capacity :
    (∀ (c : List String) (mx : ℕ) (fresh : String),
      scale_up c mx fresh ≠ c → c.length < mx) ∧
      (∀ (c : List String) (mx : ℕ) (fresh : String),
        mx ≤ c.length → scale_up c mx fresh = c) ∧
      (∀ (m : ShadowBotManager) (cpu mem : ℚ) (fresh : String) (k : ℕ),
        m.bots.length = m.max_bots →
        (auto_scale_bots m cpu mem fresh k).bots.length ≤ m.bots.length) := by
  refine ⟨?_, ?_, ?_⟩
  · intro c mx fresh hne
    by_contra hge
    push_neg at hge
    exact hne (by simp [scale_up, not_lt.mpr hge])
  · intro c mx fresh hge
    simp [scale_up, not_lt.mpr hge]
  · intro m cpu mem fresh k hcap
    simp only [auto_scale_bots]
    split
    · rw [create_at_capacity m fresh (le_of_eq hcap.symm)]
    · split
      · exact stop_shadow_bot_length_le m _
      · exact le_refl _

/-- Witness for C6: a registry of two bots with maximum 2 is unchanged by a
scale-up, and the fleet auto-scale under host CPU 90 at capacity does not
grow the fleet. -/
theorem C6_scale_out_only_below_capacity_witness :
    scale_up ["a", "b"] 2 "c" = ["a", "b"] ∧
      (auto_scale_bots ⟨2, ["a", "b"]⟩ 90 0 "c" 0).bots.length ≤ 2 := by
  refine ⟨C6_scale_out_only_below_capacity.2.1 ["a", "b"] 2 "c" (by decide), ?_⟩
  have h := C6_scale_out_only_below_capacity.2.2 ⟨2, ["a", "b"]⟩ 90 0 "c" 0 (by decide)
  simpa using h

/-- C8: sending an alert never raises to its caller: with no endpoint
configured the alert is a no-op, any delivery failure is caught into a
local print, and the event row of every applied action is appended to the
persistent log no matter which webhook deliveries fail (the events written
by a tick do not depend on the delivery outcomes at all). -/
theorem C8_alert_never_raises :
    (∀ ok : Bool, send_webhook_alert none ok = .ok []) ∧
      (∀ (url : Option String) (ok : Bool),
        ∃ printed, send_webhook_alert url ok = .ok printed) ∧
      (∀ (b fresh : String) (mx : ℕ) (url : Option String) (d : ℕ → Bool)
          (s : TMState) (st : Stats),
        (monitorTick b mx url d fresh s st).events =
          s.events ++ (monitorActions s.load_history st).1.map (actionMessage b)) := by
  refine ⟨fun _ => rfl, ?_, ?_⟩
  · intro url ok
    cases url with
    | none => exact ⟨[], rfl⟩
    | some u =>
      cases ok with
      | true => exact ⟨[], rfl⟩
      | false => exact ⟨_, rfl⟩
  · intro b fresh mx url d s st
    exact monitorTick_events b mx url d fresh s st

/-- C9 counterexample: two containers A and B monitored by the same
TaskManager.  From the fresh state, a tick of the monitor of A (CPU reading
200000) changes the load history that the monitor of B then uses: the next
tick of B decides three actions instead of none.  The history is shared, so
a tick of A does not leave the inputs of the decisions of B unchanged. -/
theorem C9_shared_history_counterexample :
    (monitorTick "A" 3 none (fun _ => true) "new"
        ⟨[], ["A", "B"], [], []⟩ ⟨200000, 0, 1, 0, 0⟩).load_history ≠
      ([] : List Sample) ∧
      (monitorActions
          (monitorTick "A" 3 none (fun _ => true) "new"
            ⟨[], ["A", "B"], [], []⟩ ⟨200000, 0, 1, 0, 0⟩).load_history
          ⟨0, 0, 1, 0, 0⟩).1 ≠
        (monitorActions ([] : List Sample) ⟨0, 0, 1, 0, 0⟩).1 := by
  rw [monitorTick_load_history]
  norm_num [pushSample, sampleOf, monitorActions, avg_cpu, avg_mem,
    avg_system_cpu, avg_system_mem, pyInt]
  all_goals simp

/-- C9 (amended): the load history is a single list owned by the
TaskManager and shared by all of its container monitors: a tick of any
monitor appends its sample to that one list, identically whichever
container ticked, so a tick of the monitor of A changes the smoothed
averages used by the next tick of the monitor of B. -/
theorem C9_amended_shared_history (a b : String) (mx : ℕ) (url : Option String)
    (d : ℕ → Bool) (fresh : String) (s : TMState) (st : Stats) :
    (monitorTick a mx url d fresh s st).load_history =
        pushSample s.load_history (sampleOf st) ∧
      (monitorTick a mx url d fresh s st).load_history =
        (monitorTick b mx url d fresh s st).load_history := by
  rw [monitorTick_load_history, monitorTick_load_history]
  exact ⟨rfl, rfl⟩

/-- C10: popping from the task queue returns the task with the lowest
priority value; among equal priorities the earliest-inserted task wins
(every task placed before the returned one in the queue has strictly
greater priority value), the returned task is removed and the rest is kept
in order; pushes enqueue at the back, so queue order is insertion order. -/
theorem C10_priority_fifo_pop (q : List Task) (t : Task) (q2 : List Task)
    (h : popTask q = some (t, q2)) :
    (∀ u ∈ q, t.priority ≤ u.priority) ∧
      (∃ pre post, q = pre ++ t :: post ∧ q2 = pre ++ post ∧
        ∀ u ∈ pre, t.priority < u.priority) ∧
      (∀ ts : List Task, List.foldl pushTask [] ts = ts) := by
  obtain ⟨h1, h2⟩ := popTask_spec q t q2 h
  exact ⟨h1, h2, fun ts => by simpa using foldl_pushTask_eq ts []⟩

/-- Witness for C10: pushing priorities [5, 1, 3] makes the first pop
return the priority-1 task, keeping [5, 3] in order, and three pops in a
row return priorities 1, 3, 5. -/
theorem C10_priority_fifo_pop_witness :
    (∀ u ∈ ([⟨5, 0⟩, ⟨1, 1⟩, ⟨3, 2⟩] : List Task),
        (⟨1, 1⟩ : Task).priority ≤ u.priority) ∧
      (∃ pre post, ([⟨5, 0⟩, ⟨1, 1⟩, ⟨3, 2⟩] : List Task) = pre ++ ⟨1, 1⟩ :: post ∧
        ([⟨5, 0⟩, ⟨3, 2⟩] : List Task) = pre ++ post ∧
        ∀ u ∈ pre, (⟨1, 1⟩ : Task).priority < u.priority) ∧
      (∀ ts : List Task, List.foldl pushTask [] ts = ts) :=
  C10_priority_fifo_pop [⟨5, 0⟩, ⟨1, 1⟩, ⟨3, 2⟩] ⟨1, 1⟩ [⟨5, 0⟩, ⟨3, 2⟩] (by decide)

end ModuleOpt
